import Mathlib

/-!  Shallow embedding of the dalet-lsp language-server session layer
(`src/main.rs`): the offset-to-position coordinate mapper built on a
character-level model of `ropey::Rope`, the document store
(`DashMap<String, Rope>`), the diagnostic pipeline (`Backend::check_file`)
and the format pipeline (the `formatting` request handler).

External collaborators (the dalet `lexer`, `parser`, `full_lexer` and
`format` functions, driven through chumsky) are opaque in the source and
are taken as function parameters here.  `ropey` line breaks are modelled
with the line-feed character; none of the properties below depends on
which characters count as line breaks, only on how line indices and
line-start offsets interlock.  Rust `usize` values are modelled as `Nat`
(the code never exercises 64-bit wraparound), while the `as u32` casts in
`Position::new(line as u32, column as u32)` are modelled explicitly since
they truncate. -/

namespace DaletLsp

/-- Character-level model of `ropey::Rope`: the text as its sequence of
characters (`Rope::from_str` keeps the full text; char indices below are
indices into this list). -/
abbrev Rope := List Char

/-- `Rope::len_chars`. -/
def lenChars (r : Rope) : Nat := r.length

/-- `Rope::len_lines`: one more than the number of line breaks (a rope
always has at least one line; a trailing break opens a final empty
line). -/
def lenLines (r : Rope) : Nat := r.count '\n' + 1

/-- `Rope::try_char_to_line`: the zero-based index of the line containing
the char at `charIdx` (the break char belongs to the line it terminates,
so the line index is the number of breaks strictly before `charIdx`);
errors when `charIdx` exceeds `len_chars` (`charIdx = len_chars` is the
allowed one-past-the-end and yields the last line). -/
def tryCharToLine (r : Rope) (charIdx : Nat) : Option Nat :=
  if charIdx ≤ r.length then some ((r.take charIdx).count '\n') else none

/-- Char index of the start of line `lineIdx`: the position just after the
`lineIdx`-th line break (0 for line 0; `len_chars` when asked for the
one-past-the-end line). -/
def startOfLine : List Char → Nat → Nat
  | _, 0 => 0
  | [], _ + 1 => 0
  | c :: cs, n + 1 =>
    if c = '\n' then 1 + startOfLine cs n else 1 + startOfLine cs (n + 1)

/-- `Rope::try_line_to_char`: char index of the start of the given line;
errors when `lineIdx > len_lines` (`lineIdx = len_lines` is the allowed
one-past-the-end and yields `len_chars`). -/
def tryLineToChar (r : Rope) (lineIdx : Nat) : Option Nat :=
  if lineIdx ≤ lenLines r then some (startOfLine r lineIdx) else none

/-- The `as u32` cast applied by `Position::new(line as u32, column as u32)`. -/
def u32cast (n : Nat) : Nat := n % 2 ^ 32

/-- `lsp_types::Position`, a zero-based (line, character) pair. -/
structure Position where
  line : Nat
  character : Nat
deriving Repr, DecidableEq

/-- `Position::new(line as u32, column as u32)` as invoked by
`offset_to_position`: both `usize` values are truncated to `u32`. -/
def Position.new (line column : Nat) : Position :=
  ⟨u32cast line, u32cast column⟩

/-- `offset_to_position` from `src/main.rs`:
```
let line = rope.try_char_to_line(offset).ok()?;
let first_char_of_line = rope.try_line_to_char(line).ok()?;
let column = offset - first_char_of_line;
Some(Position::new(line as u32, column as u32))
``` -/
def offset_to_position (offset : Nat) (rope : Rope) : Option Position :=
  match tryCharToLine rope offset with
  | none => none
  | some line =>
    match tryLineToChar rope line with
    | none => none
    | some first_char_of_line =>
      some (Position.new line (offset - first_char_of_line))

/-- `usize` subtraction with the overflow check made explicit: `none`
models the `attempt to subtract with overflow` abort. -/
def usizeSub (a b : Nat) : Option Nat :=
  if b ≤ a then some (a - b) else none

/-- `offset_to_position` with the fallibility of the `usize` subtraction
`offset - first_char_of_line` kept visible: `Except.error` marks the
subtraction aborting, `Except.ok` the function returning normally. -/
def offset_to_position_checked (offset : Nat) (rope : Rope) :
    Except String (Option Position) :=
  match tryCharToLine rope offset with
  | none => Except.ok none
  | some line =>
    match tryLineToChar rope line with
    | none => Except.ok none
    | some first_char_of_line =>
      match usizeSub offset first_char_of_line with
      | none => Except.error "attempt to subtract with overflow"
      | some column => Except.ok (some (Position.new line column))

/-- UTF-8 byte length of a character sequence; `String::len` in Rust
measures bytes, not chars. -/
def utf8Len (r : Rope) : Nat := (r.map Char.utf8Size).sum

/-- `tower_lsp::jsonrpc::Error` as constructed by the `formatting`
handler: an error code plus a message (`ErrorCode::InternalError`
serializes as `-32603`; the `data` field is always `None`). -/
structure RpcError where
  code : Int
  message : String
deriving Repr, DecidableEq

/-- Half-open span `[start, stop)` attached to a lex or parse error
(chumsky `SimpleSpan`, byte offsets); `stop` models the Rust field
named `end`. -/
structure Span where
  start : Nat
  stop : Nat
deriving Repr, DecidableEq

/-- `lsp_types::Diagnostic` as built by `check_file`:
`Diagnostic::new(Range::new(start, end), Some(DiagnosticSeverity::ERROR),
None, None, message, None, None)`; the severity is always `ERROR`
(which serializes as 1). -/
structure Diagnostic where
  rangeStart : Position
  rangeEnd : Position
  severity : Nat
  message : String
deriving Repr, DecidableEq

/-- `lsp_types::TextEdit`: a range plus replacement text. -/
structure TextEdit where
  rangeStart : Position
  rangeEnd : Position
  newText : String
deriving Repr, DecidableEq

/-- The backend's `document_map : DashMap<String, Rope>`, as the mapping
it denotes. -/
abbrev DocStore := String → Option Rope

/-- The `publish_diagnostics(uri, diagnostics, Some(version))` payload
sent at the end of `check_file`. -/
structure PublishedDiagnostics where
  uri : String
  diagnostics : List Diagnostic
  version : Int
deriving Repr, DecidableEq

/-- `Rope::to_string`. -/
def ropeToString (r : Rope) : String := String.mk r

/-- Rust `String::len`: the UTF-8 byte length of the string. -/
def strLen (s : String) : Nat := utf8Len s.toList

/-- The closure passed to `filter_map` in `check_file`: resolve both
span endpoints against the rope, dropping the whole entry when either
endpoint fails to resolve (the two `?` early returns). -/
def resolve_diag (rope : Rope) (e : String × Span) : Option Diagnostic :=
  match offset_to_position e.2.start rope, offset_to_position e.2.stop rope with
  | some startPosition, some endPosition =>
    some ⟨startPosition, endPosition, 1, e.1⟩
  | _, _ => none

/-- `Backend::check_file(params)` from `src/main.rs`, parametric in the
external collaborators: `lex` models
`lexer().parse(&text).into_output_errors()` with each error already
rendered to `(to_string(), span)`, and `parse` models
`parser().parse(tokens.spanned((0..text.len()).into())).into_errors()`
with the full byte span of the original text as second argument.  The
result is the updated `document_map` (the handler inserts
`(uri.to_string(), rope)`) plus the published diagnostics payload. -/
def check_file {Tok : Type}
    (lex : String → Option (List Tok) × List (String × Span))
    (parse : List Tok → Span → List (String × Span))
    (store : DocStore) (uri : String) (text : String) (version : Int) :
    DocStore × PublishedDiagnostics :=
  let rope : Rope := text.toList
  let lexed := lex text
  let tokens := lexed.1
  let lex_errors := lexed.2
  let errors : List (String × Span) := lex_errors
  let errors : List (String × Span) :=
    match tokens with
    | some ts => errors ++ parse ts ⟨0, strLen text⟩
    | none => errors
  let diagnostics : List Diagnostic := errors.filterMap (resolve_diag rope)
  (fun k => if k = uri then some rope else store k,
   ⟨uri, diagnostics, version⟩)

/-- The pending error set accumulated by `check_file` before span
resolution: lexer errors in production order, then (only when a token
sequence exists) parser errors over the span `0 .. text.len()`. -/
def collect_errors {Tok : Type}
    (lex : String → Option (List Tok) × List (String × Span))
    (parse : List Tok → Span → List (String × Span))
    (text : String) : List (String × Span) :=
  (lex text).2 ++
    (match (lex text).1 with
     | some ts => parse ts ⟨0, strLen text⟩
     | none => [])

/-- The `formatting` request handler from `src/main.rs`, parametric in
the external collaborators: `full_lexer` models
`full_lexer().parse(&string).into_result()` (errors discarded by the
handler) and `format` the dalet formatter.  The outer `none` models a
handler panic — the handler calls `.unwrap()` on the document-store
lookup and on both `offset_to_position` edit-boundary calls. -/
def formatting {Tok : Type}
    (full_lexer : String → Option Tok) (format : Tok → String)
    (store : DocStore) (uri : String) :
    Option (Except RpcError (Option (List TextEdit))) :=
  match store uri with
  | none => none
  | some rope =>
    let string := ropeToString rope
    match full_lexer string with
    | some t =>
      match offset_to_position 0 rope, offset_to_position (strLen string) rope with
      | some p0, some p1 => some (Except.ok (some [⟨p0, p1, format t⟩]))
      | _, _ => none
    | none => some (Except.error ⟨-32603, "Lexer error"⟩)

theorem startOfLine_zero (r : Rope) : startOfLine r 0 = 0 := by
  cases r <;> rfl

theorem count_take_le_count (r : Rope) (i : Nat) :
    (r.take i).count '\n' ≤ r.count '\n' :=
  (List.take_sublist i r).count_le '\n'

theorem count_take_le (r : Rope) (i : Nat) : (r.take i).count '\n' ≤ i :=
  le_trans (List.count_le_length _ _) (List.length_take_le i r)

/-- The start of the line containing char `i` is at or before `i`. -/
theorem startOfLine_count_take_le (r : Rope) :
    ∀ i : Nat, i ≤ r.length → startOfLine r ((r.take i).count '\n') ≤ i := by
  induction r with
  | nil =>
    intro i hi
    have h0 : i = 0 := Nat.le_zero.mp hi
    subst h0
    simp [startOfLine]
  | cons c cs ih =>
    intro i hi
    cases i with
    | zero => simp [startOfLine]
    | succ j =>
      have hj : j ≤ cs.length := by
        simp [List.length_cons] at hi
        omega
      by_cases hc : c = '\n'
      · subst hc
        have hcount : (('\n' :: cs).take (j + 1)).count '\n'
            = (cs.take j).count '\n' + 1 := by
          simp [List.take_succ_cons, List.count_cons]
        rw [hcount]
        have hih := ih j hj
        simp [startOfLine]
        omega
      · have hcount : ((c :: cs).take (j + 1)).count '\n'
            = (cs.take j).count '\n' := by
          simp [List.take_succ_cons, List.count_cons, hc]
        rw [hcount]
        cases hk : (cs.take j).count '\n' with
        | zero => simp [startOfLine]
        | succ m =>
          have hih := ih j hj
          rw [hk] at hih
          simp only [startOfLine, if_neg hc]
          omega

/-- The `usize` subtraction inside `offset_to_position` never
underflows: the checked variant always returns normally, and with the
same result as the plain function. -/
theorem offset_to_position_checked_eq (off : Nat) (r : Rope) :
    offset_to_position_checked off r = Except.ok (offset_to_position off r) := by
  unfold offset_to_position_checked offset_to_position
  cases h1 : tryCharToLine r off with
  | none => rfl
  | some line =>
    cases h2 : tryLineToChar r line with
    | none => simp [h2]
    | some first_char_of_line =>
      have hoff : off ≤ r.length := by
        by_cases h : off ≤ r.length
        · exact h
        · simp [tryCharToLine, h] at h1
      have hline : line = (r.take off).count '\n' := by
        simp [tryCharToLine, hoff] at h1
        exact h1.symm
      have hfcl : first_char_of_line = startOfLine r line := by
        by_cases h : line ≤ lenLines r
        · simp [tryLineToChar, h] at h2
          exact h2.symm
        · simp [tryLineToChar, h] at h2
      have hle : first_char_of_line ≤ off := by
        rw [hfcl, hline]
        exact startOfLine_count_take_le r off hoff
      simp [h2, usizeSub, hle]

theorem offset_to_position_isSome_iff (off : Nat) (r : Rope) :
    (offset_to_position off r).isSome ↔ off ≤ lenChars r := by
  constructor
  · intro h
    by_cases hle : off ≤ r.length
    · exact hle
    · simp [offset_to_position, tryCharToLine, hle] at h
  · intro hle
    have hcnt : (r.take off).count '\n' ≤ lenLines r :=
      le_trans (count_take_le_count r off) (Nat.le_succ _)
    have hle2 : off ≤ r.length := hle
    simp [offset_to_position, tryCharToLine, tryLineToChar, hle2, hcnt]

theorem lenChars_le_utf8Len (r : Rope) : lenChars r ≤ utf8Len r := by
  induction r with
  | nil => simp [lenChars, utf8Len]
  | cons c cs ih =>
    have h1 : 0 < c.utf8Size := Char.utf8Size_pos c
    simp only [lenChars, utf8Len, List.length_cons, List.map_cons,
      List.sum_cons] at *
    omega

theorem strLen_ropeToString (r : Rope) : strLen (ropeToString r) = utf8Len r := rfl

/-- Evaluation rule for `offset_to_position` when both lookups succeed. -/
theorem offset_to_position_eval (r : Rope) (off line fcl : Nat)
    (h1 : tryCharToLine r off = some line)
    (h2 : tryLineToChar r line = some fcl) :
    offset_to_position off r = some (Position.new line (off - fcl)) := by
  unfold offset_to_position
  simp only [h1, h2]

/-- C4: `offset_to_position 0 T` is line 0, column 0 for non-empty `T`;
the end-of-document offset `lenChars T` always resolves to some
position; and every offset strictly greater than the text length
resolves to `none`. -/
theorem offset_to_position_boundaries (T : Rope) :
    (T ≠ [] → offset_to_position 0 T = some ⟨0, 0⟩)
    ∧ (offset_to_position (lenChars T) T).isSome
    ∧ (∀ off : Nat, lenChars T < off → offset_to_position off T = none) := by
  refine ⟨?_, ?_, ?_⟩
  · intro _
    simp [offset_to_position, tryCharToLine, tryLineToChar, startOfLine_zero,
      Position.new, u32cast, lenLines]
  · exact (offset_to_position_isSome_iff _ _).mpr (le_refl _)
  · intro off hoff
    have h : ¬ off ≤ T.length := by
      have h2 : T.length < off := hoff
      omega
    simp [offset_to_position, tryCharToLine, h]

/-- Witness for C4 at the concrete text `"ab"`. -/
theorem offset_to_position_boundaries_witness :
    offset_to_position 0 ('a' :: 'b' :: []) = some ⟨0, 0⟩
    ∧ (offset_to_position (lenChars ('a' :: 'b' :: [])) ('a' :: 'b' :: [])).isSome
    ∧ offset_to_position 3 ('a' :: 'b' :: []) = none :=
  ⟨(offset_to_position_boundaries ('a' :: 'b' :: [])).1 (by decide),
   (offset_to_position_boundaries ('a' :: 'b' :: [])).2.1,
   (offset_to_position_boundaries ('a' :: 'b' :: [])).2.2 3 (by decide)⟩

/-- C5 counterexample: on a single-line text of `2 ^ 32 + 1` chars, the
valid offset `2 ^ 32` is reported as position `(0, 0)` because
`Position::new` truncates line and column with `as u32`, so line-start
plus column reconstructs `0`, not `2 ^ 32`. -/
theorem offset_to_position_roundtrip_counterexample :
    2 ^ 32 ≤ lenChars (List.replicate (2 ^ 32 + 1) 'a')
    ∧ offset_to_position (2 ^ 32) (List.replicate (2 ^ 32 + 1) 'a')
        = some ⟨0, 0⟩
    ∧ startOfLine (List.replicate (2 ^ 32 + 1) 'a') 0 + 0 ≠ 2 ^ 32 := by
  have h1 : tryCharToLine (List.replicate (2 ^ 32 + 1) 'a') (2 ^ 32)
      = some 0 := by
    unfold tryCharToLine
    rw [List.length_replicate, if_pos (by omega : 2 ^ 32 ≤ 2 ^ 32 + 1)]
    rw [List.take_replicate, List.count_replicate]
    rw [if_neg (by decide : ¬ (('a' == '\n') = true))]
  have h2 : tryLineToChar (List.replicate (2 ^ 32 + 1) 'a') 0 = some 0 := by
    unfold tryLineToChar
    rw [if_pos (Nat.zero_le _), startOfLine_zero]
  refine ⟨?_, ?_, ?_⟩
  · unfold lenChars
    rw [List.length_replicate]
    omega
  · rw [offset_to_position_eval (List.replicate (2 ^ 32 + 1) 'a') (2 ^ 32)
      0 0 h1 h2]
    unfold Position.new u32cast
    norm_num
  · rw [startOfLine_zero]
    norm_num

/-- C5 (amended): for every valid offset `O` inside `T` that is below
`2 ^ 32` (so that the `as u32` casts in `Position::new` do not
truncate), the start offset of the reported line plus the reported
column reconstructs `O` exactly. -/
theorem offset_to_position_roundtrip (T : Rope) (O : Nat)
    (hO : O ≤ lenChars T) (hsmall : O < 2 ^ 32) (line col : Nat)
    (h : offset_to_position O T = some ⟨line, col⟩) :
    startOfLine T line + col = O := by
  have hOlen : O ≤ T.length := hO
  have hcnt : (T.take O).count '\n' ≤ lenLines T :=
    le_trans (count_take_le_count T O) (Nat.le_succ _)
  simp only [offset_to_position, tryCharToLine, tryLineToChar,
    if_pos hOlen, if_pos hcnt] at h
  injection h with h
  have hl := congrArg Position.line h
  have hc := congrArg Position.character h
  simp only [Position.new, u32cast] at hl hc
  have hcntO : (T.take O).count '\n' ≤ O := count_take_le T O
  have hstart : startOfLine T ((T.take O).count '\n') ≤ O :=
    startOfLine_count_take_le T O hOlen
  have hlv : line = (T.take O).count '\n' := by
    rw [← hl]
    exact Nat.mod_eq_of_lt (lt_of_le_of_lt hcntO hsmall)
  have hcv : col = O - startOfLine T ((T.take O).count '\n') := by
    rw [← hc]
    exact Nat.mod_eq_of_lt (lt_of_le_of_lt (Nat.sub_le _ _) hsmall)
  rw [hlv, hcv]
  exact Nat.add_sub_cancel' hstart

/-- Witness for the amended C5 at text `"a\nb"`, offset 2 (the start of
the second line). -/
theorem offset_to_position_roundtrip_witness :
    startOfLine ('a' :: '\n' :: 'b' :: []) 1 + 0 = 2 :=
  offset_to_position_roundtrip ('a' :: '\n' :: 'b' :: []) 2 (by decide)
    (by norm_num) 1 0 (by decide)

/-- C10: `offset_to_position` is total — the `usize` subtraction inside
it never aborts — and it returns a position exactly when the offset is
at most the rope's char count; consequently a byte-measured span
endpoint that exceeds the char count (as arises for multi-byte text)
maps to `none`. -/
theorem offset_to_position_total (off : Nat) (r : Rope) :
    offset_to_position_checked off r = Except.ok (offset_to_position off r)
    ∧ ((offset_to_position off r).isSome ↔ off ≤ lenChars r)
    ∧ (lenChars r < utf8Len r → offset_to_position (utf8Len r) r = none) := by
  refine ⟨offset_to_position_checked_eq off r,
    offset_to_position_isSome_iff off r, ?_⟩
  intro h
  cases ho : offset_to_position (utf8Len r) r with
  | none => rfl
  | some p =>
    exfalso
    have hle := (offset_to_position_isSome_iff (utf8Len r) r).mp
      (by rw [ho]; rfl)
    omega

/-- Witness for C10 at the concrete one-char multi-byte text `"é"`: its
byte length is 2 but its char count is 1, and byte offset 2 does not
resolve. -/
theorem offset_to_position_total_witness :
    offset_to_position (utf8Len ('é' :: [])) ('é' :: []) = none :=
  (offset_to_position_total (utf8Len ('é' :: [])) ('é' :: [])).2.2 (by decide)

/-- C3: `check_file` always completes with a published diagnostic list:
the list is exactly the collected errors filtered through span
resolution, every published diagnostic stems from a collected error
whose span resolved (entries with unresolvable spans are silently
dropped), and the one internally fallible operation — the subtraction
inside `offset_to_position` — never aborts. -/
theorem check_file_never_fatal {Tok : Type}
    (lex : String → Option (List Tok) × List (String × Span))
    (parse : List Tok → Span → List (String × Span))
    (store : DocStore) (uri text : String) (version : Int) :
    ((check_file lex parse store uri text version).2.diagnostics
        = (collect_errors lex parse text).filterMap (resolve_diag text.toList))
    ∧ (∀ d ∈ (check_file lex parse store uri text version).2.diagnostics,
        ∃ e ∈ collect_errors lex parse text,
          resolve_diag text.toList e = some d)
    ∧ (∀ off : Nat, offset_to_position_checked off text.toList
        = Except.ok (offset_to_position off text.toList)) := by
  have hmain : (check_file lex parse store uri text version).2.diagnostics
      = (collect_errors lex parse text).filterMap (resolve_diag text.toList) := by
    simp only [check_file, collect_errors]
    cases htok : (lex text).1 with
    | none => simp
    | some ts => simp
  refine ⟨hmain, ?_, fun off => offset_to_position_checked_eq off text.toList⟩
  intro d hd
  rw [hmain] at hd
  exact List.mem_filterMap.mp hd

/-- Witness for C3: a single lexer error with span `[0, 1)` over the
text `"ab"` resolves and is published. -/
theorem check_file_never_fatal_witness :
    ∃ e ∈ collect_errors
        (fun _ : String =>
          ((some ([] : List Unit) : Option (List Unit)),
            [(("err" : String), Span.mk 0 1)]))
        (fun _ _ => ([] : List (String × Span))) "ab",
      resolve_diag "ab".toList e
        = some ⟨⟨0, 0⟩, ⟨0, 1⟩, 1, "err"⟩ :=
  (check_file_never_fatal
      (fun _ : String =>
        ((some ([] : List Unit) : Option (List Unit)),
          [(("err" : String), Span.mk 0 1)]))
      (fun _ _ => ([] : List (String × Span)))
      (fun _ => none) "file:///a" "ab" 1).2.1
    ⟨⟨0, 0⟩, ⟨0, 1⟩, 1, "err"⟩ (by decide)

/-- C6: `check_file` commits exactly the incoming text under `uri`,
leaves every other store entry untouched, and the published payload is
a function of the incoming text alone — it does not depend on the prior
store contents, so the diagnostics are those of the incoming text
regardless of when the commit lands. -/
theorem check_file_commit {Tok : Type}
    (lex : String → Option (List Tok) × List (String × Span))
    (parse : List Tok → Span → List (String × Span))
    (store : DocStore) (uri text : String) (version : Int) :
    ((check_file lex parse store uri text version).1 uri = some text.toList)
    ∧ (∀ k : String, k ≠ uri →
        (check_file lex parse store uri text version).1 k = store k)
    ∧ (∀ store2 : DocStore,
        (check_file lex parse store2 uri text version).2
          = (check_file lex parse store uri text version).2) := by
  refine ⟨?_, ?_, fun store2 => rfl⟩
  · simp [check_file]
  · intro k hk
    simp [check_file, hk]

/-- Witness for C6: after checking `"ab"` under `uri = "file:///a"`, the
entry of the unrelated key `"file:///b"` is what the prior store held. -/
theorem check_file_commit_witness :
    (check_file
        (fun _ : String =>
          ((none : Option (List Unit)), ([] : List (String × Span))))
        (fun _ _ => ([] : List (String × Span)))
        (fun _ => some ('x' :: [])) "file:///a" "ab" 0).1 "file:///b"
      = some ('x' :: []) :=
  (check_file_commit
      (fun _ : String =>
        ((none : Option (List Unit)), ([] : List (String × Span))))
      (fun _ _ => ([] : List (String × Span)))
      (fun _ => some ('x' :: [])) "file:///a" "ab" 0).2.1
    "file:///b" (by decide)

/-- C7: the published list is the lexer-derived diagnostics followed by
the parser-derived diagnostics, each stage kept in the order it produced
its errors. -/
theorem check_file_stage_order {Tok : Type}
    (lex : String → Option (List Tok) × List (String × Span))
    (parse : List Tok → Span → List (String × Span))
    (store : DocStore) (uri text : String) (version : Int) :
    (check_file lex parse store uri text version).2.diagnostics
      = ((lex text).2.filterMap (resolve_diag text.toList))
        ++ ((match (lex text).1 with
             | some ts => parse ts ⟨0, strLen text⟩
             | none => ([] : List (String × Span))).filterMap
              (resolve_diag text.toList)) := by
  simp only [check_file]
  cases htok : (lex text).1 with
  | none => simp
  | some ts => simp [List.filterMap_append]

/-- C8: the parser stage contributes errors exactly when the lexer
produced a token sequence — with no tokens only the lexer errors are
carried forward (and published), and with tokens the parser runs over
the full byte span of the original text with its errors appended. -/
theorem check_file_parse_gating {Tok : Type}
    (lex : String → Option (List Tok) × List (String × Span))
    (parse : List Tok → Span → List (String × Span))
    (store : DocStore) (uri text : String) (version : Int) :
    ((lex text).1 = none →
        collect_errors lex parse text = (lex text).2
        ∧ (check_file lex parse store uri text version).2.diagnostics
            = (lex text).2.filterMap (resolve_diag text.toList))
    ∧ (∀ ts : List Tok, (lex text).1 = some ts →
        collect_errors lex parse text
          = (lex text).2 ++ parse ts ⟨0, strLen text⟩) := by
  constructor
  · intro h
    constructor
    · simp [collect_errors, h]
    · simp [check_file, h]
  · intro ts h
    simp [collect_errors, h]

/-- Witness for C8 in the no-tokens branch: lexing produced no token
sequence, so only the lexer error is carried forward and published. -/
theorem check_file_parse_gating_witness :
    collect_errors
        (fun _ : String =>
          ((none : Option (List Unit)), [(("e" : String), Span.mk 0 0)]))
        (fun _ _ => ([] : List (String × Span))) "x"
      = [(("e" : String), Span.mk 0 0)] :=
  ((check_file_parse_gating
      (fun _ : String =>
        ((none : Option (List Unit)), [(("e" : String), Span.mk 0 0)]))
      (fun _ _ => ([] : List (String × Span)))
      (fun _ => none) "file:///a" "x" 0).1 rfl).1

/-- C1 counterexample: a format request against an empty document store
does not yield an error response (`some (Except.error _)`) and does not
return an empty edit — the handler panics (`none`) on the unwrapped
store lookup. -/
theorem formatting_missing_document_counterexample :
    formatting (fun _ : String => (none : Option Unit)) (fun _ : Unit => "")
      (fun _ : String => (none : Option Rope)) "file:///a" = none := rfl

/-- C1 (amended): when the URI has no entry in the document store, the
`formatting` handler panics — it unwraps the failed lookup — rather than
returning a `DocumentNotFound`-style request-level error response. -/
theorem formatting_missing_document_panics {Tok : Type}
    (full_lexer : String → Option Tok) (format : Tok → String)
    (store : DocStore) (uri : String) (h : store uri = none) :
    formatting full_lexer format store uri = none := by
  simp [formatting, h]

/-- Witness for the amended C1. -/
theorem formatting_missing_document_panics_witness :
    formatting (fun _ : String => (none : Option Unit)) (fun _ : Unit => "")
      (fun _ : String => (none : Option Rope)) "file:///b" = none :=
  formatting_missing_document_panics (fun _ : String => (none : Option Unit))
    (fun _ : Unit => "") (fun _ : String => (none : Option Rope))
    "file:///b" rfl

/-- C2 counterexample: for the stored one-char text `"é"`, full-fidelity
lexing (stubbed as succeeding) is fine, yet the end edit boundary — the
byte length 2 of a 1-char rope — fails to resolve, and the handler
panics (`none`) instead of answering with a request-level error
response. -/
theorem formatting_failure_counterexample :
    offset_to_position (strLen (ropeToString ('é' :: []))) ('é' :: []) = none
    ∧ formatting (fun _ : String => some ()) (fun _ : Unit => "")
        (fun k : String => if k = "file:///a" then some ('é' :: []) else none)
        "file:///a" = none := by
  exact ⟨rfl, rfl⟩

/-- C2 (amended): for a stored document, a full-fidelity lexing failure
surfaces as the request-level `InternalError` response `"Lexer error"`
with no edit produced; but an edit-boundary offset that fails to resolve
is not turned into an error response — the handler panics on the
unwrapped `offset_to_position` call. -/
theorem formatting_failure_paths {Tok : Type}
    (full_lexer : String → Option Tok) (format : Tok → String)
    (store : DocStore) (uri : String) (rope : Rope)
    (hstore : store uri = some rope) :
    (full_lexer (ropeToString rope) = none →
        formatting full_lexer format store uri
          = some (Except.error ⟨-32603, "Lexer error"⟩))
    ∧ (∀ t : Tok, full_lexer (ropeToString rope) = some t →
        offset_to_position (strLen (ropeToString rope)) rope = none →
        formatting full_lexer format store uri = none) := by
  constructor
  · intro h
    simp [formatting, hstore, h]
  · intro t h hend
    cases hx : offset_to_position 0 rope <;>
      simp [formatting, hstore, h, hend, hx]

/-- Witness for the amended C2 in the lexing-failure branch. -/
theorem formatting_failure_paths_witness :
    formatting (fun _ : String => (none : Option Unit)) (fun _ : Unit => "")
      (fun k : String => if k = "file:///a" then some ('a' :: []) else none)
      "file:///a" = some (Except.error ⟨-32603, "Lexer error"⟩) :=
  (formatting_failure_paths (fun _ : String => (none : Option Unit))
      (fun _ : Unit => "")
      (fun k : String => if k = "file:///a" then some ('a' :: []) else none)
      "file:///a" ('a' :: []) rfl).1 rfl

/-- C9: whenever the `formatting` handler succeeds, the response holds
exactly one edit, its range runs from the position of offset 0 to the
position of the full text length (on the success path the byte length
used by the handler necessarily equals the char count), and its new text
is the formatter's rendering of the full-fidelity lex result. -/
theorem formatting_success_shape {Tok : Type}
    (full_lexer : String → Option Tok) (format : Tok → String)
    (store : DocStore) (uri : String) (rope : Rope)
    (res : Option (List TextEdit))
    (hstore : store uri = some rope)
    (hres : formatting full_lexer format store uri = some (Except.ok res)) :
    ∃ t p0 p1, full_lexer (ropeToString rope) = some t
      ∧ offset_to_position 0 rope = some p0
      ∧ offset_to_position (lenChars rope) rope = some p1
      ∧ res = some [⟨p0, p1, format t⟩]
      ∧ utf8Len rope = lenChars rope := by
  simp only [formatting, hstore] at hres
  cases hlex : full_lexer (ropeToString rope) with
  | none => simp [hlex] at hres
  | some t =>
    simp only [hlex] at hres
    cases h0 : offset_to_position 0 rope with
    | none => simp [h0] at hres
    | some p0 =>
      cases h1 : offset_to_position (strLen (ropeToString rope)) rope with
      | none => simp [h0, h1] at hres
      | some p1 =>
        simp only [h0, h1] at hres
        have hby : utf8Len rope = lenChars rope := by
          have hle1 : utf8Len rope ≤ lenChars rope := by
            have := (offset_to_position_isSome_iff
              (strLen (ropeToString rope)) rope).mp (by rw [h1]; rfl)
            rw [strLen_ropeToString] at this
            exact this
          exact le_antisymm hle1 (lenChars_le_utf8Len rope)
        refine ⟨t, p0, p1, rfl, rfl, ?_, ?_, hby⟩
        · rw [← hby, ← strLen_ropeToString]
          exact h1
        · have := hres
          injection this with this
          injection this with this
          exact this.symm

/-- Witness for C9: a successful format of the stored text `"ab"`. -/
theorem formatting_success_shape_witness :
    ∃ t p0 p1,
      (fun _ : String => some ()) (ropeToString ('a' :: 'b' :: [])) = some t
      ∧ offset_to_position 0 ('a' :: 'b' :: []) = some p0
      ∧ offset_to_position (lenChars ('a' :: 'b' :: [])) ('a' :: 'b' :: [])
          = some p1
      ∧ (some [(⟨⟨0, 0⟩, ⟨0, 2⟩, "fmt"⟩ : TextEdit)] : Option (List TextEdit))
          = some [⟨p0, p1, (fun _ : Unit => "fmt") t⟩]
      ∧ utf8Len ('a' :: 'b' :: []) = lenChars ('a' :: 'b' :: []) :=
  formatting_success_shape (fun _ : String => some ()) (fun _ : Unit => "fmt")
    (fun k : String => if k = "file:///a" then some ('a' :: 'b' :: []) else none)
    "file:///a" ('a' :: 'b' :: []) (some [⟨⟨0, 0⟩, ⟨0, 2⟩, "fmt"⟩])
    rfl rfl

end DaletLsp
